import Mathlib

/-!
Verification of the async++ scheduler (`src/scheduler.cpp`).

The scheduler's externally observable control flow is embedded shallowly:
each function of the source is translated into a Lean function that, given a
script of the answers the surrounding system would give to its queries
(queue pops, steal attempts, shutdown reads, readiness checks), emits the
ordered trace of the operations the C++ code performs.  Queue contents and
waiter registries are modelled as explicit lists for the state-passing
parts (`schedule`, the destructor).  All definitions are executable.
-/

namespace AsyncPP

/-- Observable operations performed by the worker main loop
(`worker_thread`), the nested wait handler (`threadpool_wait_handler`) and
the generic wait handler, in the order the C++ source performs them. -/
inductive Ev where
  | popLocal (found : Bool)
  | runTask
  | popPublic (found : Bool)
  | checkShutdown (value : Bool)
  | stealAttempt (found : Bool)
  | reset
  | fence
  | readyCheck (value : Bool)
  | attachContinuation
  | registerWaiter
  | wait
  | removeWaiter
  deriving DecidableEq, Repr

/-- Script of answers the environment gives to a worker's queries: results of
successive local-queue pops, public-queue pops, steal attempts, and reads of
the `shutdown` flag.  Exhausted scripts default to "no task" / "shutdown". -/
structure WorkerEnv where
  localQ : List Bool
  pubQ : List Bool
  stealQ : List Bool
  shut : List Bool
  deriving DecidableEq, Repr

/-- Main loop of `worker_thread` (scheduler.cpp lines 238-277), with fuel.
The `phase` flag is `true` at the top of the outer loop (local pop) and
`false` at the top of the inner stealing loop.  Faithful to the source: the
inner loop tries the public queue, then checks `shutdown`, then steals; when
nothing is found it performs `thread_event.reset()`, `register_waiter`,
re-checks `shutdown`, and only then `thread_event.wait()`.  (The C++ main
loop contains no memory fence and no queue re-check between `reset` and
`wait`; the fence exists only in `threadpool_wait_handler`.) -/
def worker_thread : Nat → Bool → WorkerEnv → List Ev
  | 0, _, _ => []
  | Nat.succ fuel, true, env =>
    if env.localQ.headD false then
      Ev.popLocal true :: Ev.runTask ::
        worker_thread fuel true { env with localQ := env.localQ.tail }
    else
      Ev.popLocal false ::
        worker_thread fuel false { env with localQ := env.localQ.tail }
  | Nat.succ fuel, false, env =>
    if env.pubQ.headD false then
      Ev.popPublic true :: Ev.runTask ::
        worker_thread fuel true { env with pubQ := env.pubQ.tail }
    else if env.shut.headD true then
      [Ev.popPublic false, Ev.checkShutdown true]
    else if env.stealQ.headD false then
      Ev.popPublic false :: Ev.checkShutdown false :: Ev.stealAttempt true :: Ev.runTask ::
        worker_thread fuel true
          { env with pubQ := env.pubQ.tail, shut := env.shut.tail, stealQ := env.stealQ.tail }
    else if env.shut.tail.headD true then
      [Ev.popPublic false, Ev.checkShutdown false, Ev.stealAttempt false,
       Ev.reset, Ev.registerWaiter, Ev.checkShutdown true]
    else
      Ev.popPublic false :: Ev.checkShutdown false :: Ev.stealAttempt false ::
      Ev.reset :: Ev.registerWaiter :: Ev.checkShutdown false :: Ev.wait ::
        worker_thread fuel false
          { env with pubQ := env.pubQ.tail, shut := env.shut.tail.tail,
                     stealQ := env.stealQ.tail }

/-- Checks the shape of every park episode in a main-loop trace: each
occurrence of `reset` is immediately followed by `registerWaiter`, then a
`shutdown` re-check, and — when that re-check is negative — immediately by
`wait`; a positive re-check ends the trace (the worker returns).  In
particular nothing (no fence, no queue re-check) sits between `reset` and
`wait`. -/
def mainParkShape : List Ev → Bool
  | [] => true
  | Ev.reset :: Ev.registerWaiter :: Ev.checkShutdown true :: rest => rest.isEmpty
  | Ev.reset :: Ev.registerWaiter :: Ev.checkShutdown false :: Ev.wait :: rest =>
      mainParkShape rest
  | Ev.reset :: _ => false
  | _ :: rest => mainParkShape rest

theorem mainParkShape_stop :
    mainParkShape [Ev.reset, Ev.registerWaiter, Ev.checkShutdown true] = true := rfl

theorem mainParkShape_park (r : List Ev) :
    mainParkShape (Ev.reset :: Ev.registerWaiter :: Ev.checkShutdown false :: Ev.wait :: r) =
      mainParkShape r := rfl

theorem mainParkShape_popLocal (b : Bool) (r : List Ev) :
    mainParkShape (Ev.popLocal b :: r) = mainParkShape r := rfl

theorem mainParkShape_popPublic (b : Bool) (r : List Ev) :
    mainParkShape (Ev.popPublic b :: r) = mainParkShape r := rfl

theorem mainParkShape_runTask (r : List Ev) :
    mainParkShape (Ev.runTask :: r) = mainParkShape r := rfl

theorem mainParkShape_checkShutdown (b : Bool) (r : List Ev) :
    mainParkShape (Ev.checkShutdown b :: r) = mainParkShape r := rfl

theorem mainParkShape_steal (b : Bool) (r : List Ev) :
    mainParkShape (Ev.stealAttempt b :: r) = mainParkShape r := rfl

/-- Concrete environment in which the worker finds no task once, parks, and
is then shut down. -/
def parkEnvC1 : WorkerEnv :=
  { localQ := [false], pubQ := [false, false], stealQ := [false],
    shut := [false, false, true] }

/-- C1 (counterexample): the claim states that in a no-task iteration the
main loop performs `reset`, then a seq-cst fence, then a queue re-check,
before `register_waiter` and `wait`.  In the concrete run below the worker
parks (the trace contains `reset` followed directly by `registerWaiter` and
the shutdown re-check) yet the trace contains no fence event at all and no
queue re-check between `reset` and `wait`. -/
theorem worker_park_no_fence_cex :
    worker_thread 3 true parkEnvC1 =
      [Ev.popLocal false, Ev.popPublic false, Ev.checkShutdown false, Ev.stealAttempt false,
       Ev.reset, Ev.registerWaiter, Ev.checkShutdown false, Ev.wait,
       Ev.popPublic false, Ev.checkShutdown true] ∧
    Ev.fence ∉ worker_thread 3 true parkEnvC1 := by
  decide

/-- C1 (amended): in every no-task iteration of the worker main loop the
worker performs, in order, `event.reset()`, `register_waiter(event)`, a
re-check of the shutdown flag, and — only when that re-check is negative —
`event.wait()`; nothing else (in particular no seq-cst fence and no queue
re-check) occurs between `reset` and `wait`, and the main loop never issues
a memory fence. -/
theorem worker_park_protocol (fuel : Nat) (phase : Bool) (env : WorkerEnv) :
    mainParkShape (worker_thread fuel phase env) = true ∧
    Ev.fence ∉ worker_thread fuel phase env := by
  induction fuel generalizing phase env with
  | zero => simp [worker_thread, mainParkShape]
  | succ fuel ih =>
    cases phase with
    | true =>
      cases hl : env.localQ.headD false with
      | true =>
        simp only [worker_thread, hl, if_true]
        refine ⟨?_, ?_⟩
        · rw [mainParkShape_popLocal, mainParkShape_runTask]
          exact (ih true _).1
        · simp [List.mem_cons, (ih true _).2]
      | false =>
        simp only [worker_thread, hl, Bool.false_eq_true, if_false]
        refine ⟨?_, ?_⟩
        · rw [mainParkShape_popLocal]
          exact (ih false _).1
        · simp [List.mem_cons, (ih false _).2]
    | false =>
      cases hp : env.pubQ.headD false with
      | true =>
        simp only [worker_thread, hp, if_true]
        refine ⟨?_, ?_⟩
        · rw [mainParkShape_popPublic, mainParkShape_runTask]
          exact (ih true _).1
        · simp [List.mem_cons, (ih true _).2]
      | false =>
        cases hs1 : env.shut.headD true with
        | true =>
          simp only [worker_thread, hp, hs1, Bool.false_eq_true, if_false, if_true]
          refine ⟨by rfl, by simp⟩
        | false =>
          cases hst : env.stealQ.headD false with
          | true =>
            simp only [worker_thread, hp, hs1, hst, Bool.false_eq_true, if_false, if_true]
            refine ⟨?_, ?_⟩
            · rw [mainParkShape_popPublic, mainParkShape_checkShutdown,
                mainParkShape_steal, mainParkShape_runTask]
              exact (ih true _).1
            · simp [List.mem_cons, (ih true _).2]
          | false =>
            cases hs2 : env.shut.tail.headD true with
            | true =>
              simp only [worker_thread, hp, hs1, hst, hs2, Bool.false_eq_true, if_false, if_true]
              refine ⟨by rfl, by simp⟩
            | false =>
              simp only [worker_thread, hp, hs1, hst, hs2, Bool.false_eq_true, if_false]
              refine ⟨?_, ?_⟩
              · rw [mainParkShape_popPublic, mainParkShape_checkShutdown,
                  mainParkShape_steal, mainParkShape_park]
                exact (ih false _).1
              · simp [List.mem_cons, (ih false _).2]

/-- Script of answers for a nested wait: results of successive
`wait_task.ready()` checks, local pops, public pops and steal attempts. -/
structure WaitEnv where
  readyQ : List Bool
  localQ : List Bool
  pubQ : List Bool
  stealQ : List Bool
  deriving DecidableEq, Repr

/-- Nested wait handler `threadpool_wait_handler` (scheduler.cpp lines
149-218), with fuel.  `phase` is `true` at the top of the outer loop (ready
check, then local pop) and `false` at the top of the inner loop; `added`
mirrors the `added_continuation` flag.  Faithful to the source: the park
path performs `reset`, a seq-cst fence, a `ready()` re-check (returning if
positive), attaches the continuation only if `added_continuation` is still
false, registers, waits, removes itself from the waiter list, and re-checks
`ready()` again. -/
def threadpool_wait_handler : Nat → Bool → Bool → WaitEnv → List Ev
  | 0, _, _, _ => []
  | Nat.succ fuel, true, added, env =>
    if env.readyQ.headD true then
      [Ev.readyCheck true]
    else if env.localQ.headD false then
      Ev.readyCheck false :: Ev.popLocal true :: Ev.runTask ::
        threadpool_wait_handler fuel true added
          { env with readyQ := env.readyQ.tail, localQ := env.localQ.tail }
    else
      Ev.readyCheck false :: Ev.popLocal false ::
        threadpool_wait_handler fuel false added
          { env with readyQ := env.readyQ.tail, localQ := env.localQ.tail }
  | Nat.succ fuel, false, added, env =>
    if env.pubQ.headD false then
      Ev.popPublic true :: Ev.runTask ::
        threadpool_wait_handler fuel true added { env with pubQ := env.pubQ.tail }
    else if env.stealQ.headD false then
      Ev.popPublic false :: Ev.stealAttempt true :: Ev.runTask ::
        threadpool_wait_handler fuel true added
          { env with pubQ := env.pubQ.tail, stealQ := env.stealQ.tail }
    else if env.readyQ.headD true then
      [Ev.popPublic false, Ev.stealAttempt false, Ev.reset, Ev.fence, Ev.readyCheck true]
    else if env.readyQ.tail.headD true then
      Ev.popPublic false :: Ev.stealAttempt false :: Ev.reset :: Ev.fence ::
        Ev.readyCheck false ::
        ((if added then [] else [Ev.attachContinuation]) ++
         [Ev.registerWaiter, Ev.wait, Ev.removeWaiter, Ev.readyCheck true])
    else
      Ev.popPublic false :: Ev.stealAttempt false :: Ev.reset :: Ev.fence ::
        Ev.readyCheck false ::
        ((if added then [] else [Ev.attachContinuation]) ++
         (Ev.registerWaiter :: Ev.wait :: Ev.removeWaiter :: Ev.readyCheck false ::
           threadpool_wait_handler fuel false true
             { env with readyQ := env.readyQ.tail.tail, pubQ := env.pubQ.tail,
                        stealQ := env.stealQ.tail }))

/-- Number of `on_finish` continuation attachments recorded in a trace. -/
def countAttach : List Ev → Nat
  | [] => 0
  | Ev.attachContinuation :: rest => countAttach rest + 1
  | _ :: rest => countAttach rest

theorem countAttach_attach (r : List Ev) :
    countAttach (Ev.attachContinuation :: r) = countAttach r + 1 := rfl

/-- Checks where continuation attachments may appear in a nested-wait trace:
only directly after `reset`, the fence, and a negative `ready()` re-check,
and directly before `registerWaiter` and `wait`; a positive `ready()`
re-check after the fence ends the trace (the handler returns without
attaching). -/
def attachShape : List Ev → Bool
  | [] => true
  | Ev.reset :: Ev.fence :: Ev.readyCheck true :: rest => rest.isEmpty
  | Ev.reset :: Ev.fence :: Ev.readyCheck false :: Ev.attachContinuation ::
      Ev.registerWaiter :: Ev.wait :: rest => attachShape rest
  | Ev.reset :: Ev.fence :: Ev.readyCheck false :: Ev.registerWaiter :: Ev.wait :: rest =>
      attachShape rest
  | Ev.reset :: _ => false
  | Ev.attachContinuation :: _ => false
  | _ :: rest => attachShape rest

theorem attachShape_stop (r : List Ev) :
    attachShape (Ev.reset :: Ev.fence :: Ev.readyCheck true :: r) = r.isEmpty := rfl

theorem attachShape_parkAttach (r : List Ev) :
    attachShape (Ev.reset :: Ev.fence :: Ev.readyCheck false :: Ev.attachContinuation ::
      Ev.registerWaiter :: Ev.wait :: r) = attachShape r := rfl

theorem attachShape_parkNoAttach (r : List Ev) :
    attachShape (Ev.reset :: Ev.fence :: Ev.readyCheck false :: Ev.registerWaiter ::
      Ev.wait :: r) = attachShape r := rfl

theorem attachShape_readyCheck (b : Bool) (r : List Ev) :
    attachShape (Ev.readyCheck b :: r) = attachShape r := rfl

theorem attachShape_popLocal (b : Bool) (r : List Ev) :
    attachShape (Ev.popLocal b :: r) = attachShape r := rfl

theorem attachShape_popPublic (b : Bool) (r : List Ev) :
    attachShape (Ev.popPublic b :: r) = attachShape r := rfl

theorem attachShape_runTask (r : List Ev) :
    attachShape (Ev.runTask :: r) = attachShape r := rfl

theorem attachShape_steal (b : Bool) (r : List Ev) :
    attachShape (Ev.stealAttempt b :: r) = attachShape r := rfl

theorem attachShape_removeWaiter (r : List Ev) :
    attachShape (Ev.removeWaiter :: r) = attachShape r := rfl

theorem countAttach_cons (e : Ev) (r : List Ev) (h : e ≠ Ev.attachContinuation) :
    countAttach (e :: r) = countAttach r := by
  cases e <;> first | rfl | exact absurd rfl h

theorem countAttach_handler (fuel : Nat) (phase added : Bool) (env : WaitEnv) :
    countAttach (threadpool_wait_handler fuel phase added env) ≤ if added then 0 else 1 := by
  induction fuel generalizing phase added env with
  | zero =>
    cases added <;> simp [threadpool_wait_handler, countAttach]
  | succ fuel ih =>
    cases phase with
    | true =>
      cases hr : env.readyQ.headD true with
      | true =>
        simp only [threadpool_wait_handler, hr, if_true]
        cases added <;> simp [countAttach]
      | false =>
        cases hl : env.localQ.headD false with
        | true =>
          simp only [threadpool_wait_handler, hr, hl, Bool.false_eq_true, if_false, if_true]
          rw [countAttach_cons _ _ (by decide), countAttach_cons _ _ (by decide),
            countAttach_cons _ _ (by decide)]
          exact ih true added _
        | false =>
          simp only [threadpool_wait_handler, hr, hl, Bool.false_eq_true, if_false]
          rw [countAttach_cons _ _ (by decide), countAttach_cons _ _ (by decide)]
          exact ih false added _
    | false =>
      cases hp : env.pubQ.headD false with
      | true =>
        simp only [threadpool_wait_handler, hp, if_true]
        rw [countAttach_cons _ _ (by decide), countAttach_cons _ _ (by decide)]
        exact ih true added _
      | false =>
        cases hst : env.stealQ.headD false with
        | true =>
          simp only [threadpool_wait_handler, hp, hst, Bool.false_eq_true, if_false, if_true]
          rw [countAttach_cons _ _ (by decide), countAttach_cons _ _ (by decide),
            countAttach_cons _ _ (by decide)]
          exact ih true added _
        | false =>
          cases hr1 : env.readyQ.headD true with
          | true =>
            simp only [threadpool_wait_handler, hp, hst, hr1, Bool.false_eq_true,
              if_false, if_true]
            cases added <;> simp [countAttach]
          | false =>
            cases hr2 : env.readyQ.tail.headD true with
            | true =>
              simp only [threadpool_wait_handler, hp, hst, hr1, hr2, Bool.false_eq_true,
                if_false, if_true]
              cases added <;> simp [countAttach]
            | false =>
              simp only [threadpool_wait_handler, hp, hst, hr1, hr2, Bool.false_eq_true,
                if_false]
              cases added with
              | true =>
                simp only [if_true, List.nil_append]
                rw [countAttach_cons _ _ (by decide), countAttach_cons _ _ (by decide),
                  countAttach_cons _ _ (by decide), countAttach_cons _ _ (by decide),
                  countAttach_cons _ _ (by decide), countAttach_cons _ _ (by decide),
                  countAttach_cons _ _ (by decide), countAttach_cons _ _ (by decide),
                  countAttach_cons _ _ (by decide)]
                have h := ih false true
                  { env with readyQ := env.readyQ.tail.tail, pubQ := env.pubQ.tail,
                             stealQ := env.stealQ.tail }
                simpa using h
              | false =>
                simp only [Bool.false_eq_true, if_false, List.cons_append, List.nil_append]
                rw [countAttach_cons _ _ (by decide), countAttach_cons _ _ (by decide),
                  countAttach_cons _ _ (by decide), countAttach_cons _ _ (by decide),
                  countAttach_cons _ _ (by decide), countAttach_attach,
                  countAttach_cons _ _ (by decide), countAttach_cons _ _ (by decide),
                  countAttach_cons _ _ (by decide), countAttach_cons _ _ (by decide)]
                have h := ih false true
                  { env with readyQ := env.readyQ.tail.tail, pubQ := env.pubQ.tail,
                             stealQ := env.stealQ.tail }
                simp only [if_true, Nat.le_zero] at h
                simp [h]

theorem attachShape_handler (fuel : Nat) (phase added : Bool) (env : WaitEnv) :
    attachShape (threadpool_wait_handler fuel phase added env) = true := by
  induction fuel generalizing phase added env with
  | zero => simp [threadpool_wait_handler, attachShape]
  | succ fuel ih =>
    cases phase with
    | true =>
      cases hr : env.readyQ.headD true with
      | true =>
        simp only [threadpool_wait_handler, hr, if_true]
        rfl
      | false =>
        cases hl : env.localQ.headD false with
        | true =>
          simp only [threadpool_wait_handler, hr, hl, Bool.false_eq_true, if_false, if_true]
          rw [attachShape_readyCheck, attachShape_popLocal, attachShape_runTask]
          exact ih true added _
        | false =>
          simp only [threadpool_wait_handler, hr, hl, Bool.false_eq_true, if_false]
          rw [attachShape_readyCheck, attachShape_popLocal]
          exact ih false added _
    | false =>
      cases hp : env.pubQ.headD false with
      | true =>
        simp only [threadpool_wait_handler, hp, if_true]
        rw [attachShape_popPublic, attachShape_runTask]
        exact ih true added _
      | false =>
        cases hst : env.stealQ.headD false with
        | true =>
          simp only [threadpool_wait_handler, hp, hst, Bool.false_eq_true, if_false, if_true]
          rw [attachShape_popPublic, attachShape_steal, attachShape_runTask]
          exact ih true added _
        | false =>
          cases hr1 : env.readyQ.headD true with
          | true =>
            simp only [threadpool_wait_handler, hp, hst, hr1, Bool.false_eq_true,
              if_false, if_true]
            rw [attachShape_popPublic, attachShape_steal, attachShape_stop]
            rfl
          | false =>
            cases hr2 : env.readyQ.tail.headD true with
            | true =>
              simp only [threadpool_wait_handler, hp, hst, hr1, hr2, Bool.false_eq_true,
                if_false, if_true]
              cases added with
              | true =>
                simp only [if_true, List.nil_append]
                rw [attachShape_popPublic, attachShape_steal, attachShape_parkNoAttach,
                  attachShape_removeWaiter, attachShape_readyCheck]
                rfl
              | false =>
                simp only [Bool.false_eq_true, if_false, List.cons_append, List.nil_append]
                rw [attachShape_popPublic, attachShape_steal, attachShape_parkAttach,
                  attachShape_removeWaiter, attachShape_readyCheck]
                rfl
            | false =>
              simp only [threadpool_wait_handler, hp, hst, hr1, hr2, Bool.false_eq_true,
                if_false]
              cases added with
              | true =>
                simp only [if_true, List.nil_append]
                rw [attachShape_popPublic, attachShape_steal, attachShape_parkNoAttach,
                  attachShape_removeWaiter, attachShape_readyCheck]
                exact ih false true _
              | false =>
                simp only [Bool.false_eq_true, if_false, List.cons_append, List.nil_append]
                rw [attachShape_popPublic, attachShape_steal, attachShape_parkAttach,
                  attachShape_removeWaiter, attachShape_readyCheck]
                exact ih false true _

/-- C2: over a whole invocation of `threadpool_wait_handler` the `on_finish`
continuation is attached at most once; every attachment sits directly after
`reset`, the seq-cst fence, and a negative `ready()` re-check (the park
decision point), and whenever that post-reset `ready()` re-check is
positive the handler returns at once without attaching. -/
theorem wait_handler_attach_once (fuel : Nat) (env : WaitEnv) :
    countAttach (threadpool_wait_handler fuel true false env) ≤ 1 ∧
    attachShape (threadpool_wait_handler fuel true false env) = true := by
  refine ⟨?_, attachShape_handler fuel true false env⟩
  have h := countAttach_handler fuel true false env
  simpa using h

/-- State of the thread-pool scheduler used by the state-passing embedding of
`schedule` and the destructor.  Task tokens are opaque `Nat` values.  Each
local deque is a list whose head is the owner's LIFO end; the public queue
is a list whose head is the pop end; `waiters` mirrors the `waiters` vector
(list end = back of the vector). -/
structure PoolState where
  shutdown : Bool
  locals : List (List Nat)
  publicQ : List Nat
  waiters : List Nat
  deriving DecidableEq, Repr

/-- Operations performed by `threadpool_scheduler_impl::schedule`, in source
order.  Lock acquisition/release of `waiters_lock` is recorded so that the
position of the `signal` call relative to the critical section is visible. -/
inductive SEv where
  | readShutdown (value : Bool)
  | runInline (t : Nat)
  | pushLocal (i : Nat) (t : Nat)
  | pushPublic (t : Nat)
  | fastEmptyCheck (empty : Bool)
  | lockAcquire
  | recheckEmpty (empty : Bool)
  | popBackWaiter (w : Nat)
  | lockRelease
  | signalWaiter (w : Nat)
  deriving DecidableEq, Repr

/-- Embedding of `threadpool_scheduler_impl::schedule` (scheduler.cpp lines
338-377): run inline if `shutdown`; otherwise push onto the caller's local
deque when the caller has a worker id (`thread_id != -1`), else onto the
public queue; return on the racy fast-path `waiters.empty()` check; else
take `waiters_lock`, re-check emptiness, pop the back waiter, release the
lock, and signal the popped waiter.  In this sequential model the in-lock
re-check observes the same `waiters` list as the fast-path check. -/
def schedule (s : PoolState) (callerId : Option Nat) (t : Nat) : PoolState × List SEv :=
  if s.shutdown then
    (s, [SEv.readShutdown true, SEv.runInline t])
  else
    let s1 : PoolState :=
      match callerId with
      | some i => { s with locals := s.locals.set i (t :: s.locals.getD i []) }
      | none => { s with publicQ := s.publicQ ++ [t] }
    let pushEv : SEv :=
      match callerId with
      | some i => SEv.pushLocal i t
      | none => SEv.pushPublic t
    if s1.waiters.isEmpty then
      (s1, [SEv.readShutdown false, pushEv, SEv.fastEmptyCheck true])
    else
      ({ s1 with waiters := s1.waiters.dropLast },
       [SEv.readShutdown false, pushEv, SEv.fastEmptyCheck false, SEv.lockAcquire,
        SEv.recheckEmpty false, SEv.popBackWaiter (s1.waiters.getLastD 0), SEv.lockRelease,
        SEv.signalWaiter (s1.waiters.getLastD 0)])

/-- Number of waiter signals recorded in a `schedule` trace. -/
def countSignals : List SEv → Nat
  | [] => 0
  | SEv.signalWaiter _ :: rest => countSignals rest + 1
  | _ :: rest => countSignals rest

/-- C4: while shutdown is not set, `schedule` pushes onto the calling
worker's local deque when the caller has a worker id and onto the public
queue otherwise; afterwards, unless the fast-path `waiters.empty()` check
passes, exactly one waiter is popped (after the in-lock emptiness re-check)
and signalled — one signal when any waiter is registered, none otherwise,
and never more than one. -/
theorem schedule_submit_wakes_one (s : PoolState) (callerId : Option Nat) (t : Nat)
    (h : s.shutdown = false) :
    (∀ i, callerId = some i →
      (schedule s callerId t).1.locals = s.locals.set i (t :: s.locals.getD i []) ∧
      (schedule s callerId t).1.publicQ = s.publicQ) ∧
    (callerId = none →
      (schedule s callerId t).1.publicQ = s.publicQ ++ [t] ∧
      (schedule s callerId t).1.locals = s.locals) ∧
    countSignals (schedule s callerId t).2 ≤ 1 ∧
    (s.waiters ≠ [] → countSignals (schedule s callerId t).2 = 1) ∧
    (s.waiters = [] → countSignals (schedule s callerId t).2 = 0) ∧
    (schedule s callerId t).1.waiters =
      (if s.waiters.isEmpty then s.waiters else s.waiters.dropLast) := by
  cases callerId with
  | none =>
    cases hw : s.waiters with
    | nil =>
      simp [schedule, h, hw, countSignals]
    | cons w ws =>
      simp [schedule, h, hw, countSignals]
  | some i =>
    cases hw : s.waiters with
    | nil =>
      simp [schedule, h, hw, countSignals]
    | cons w ws =>
      simp [schedule, h, hw, countSignals]

/-- Concrete state used to instantiate the `schedule` theorems. -/
def schedWitnessState : PoolState :=
  { shutdown := false, locals := [[]], publicQ := [3], waiters := [5] }

/-- Witness for C4 at a concrete state with one registered waiter. -/
theorem schedule_submit_wakes_one_witness :
    countSignals (schedule schedWitnessState none 7).2 = 1 ∧
    (schedule schedWitnessState none 7).1.publicQ = [3, 7] := by
  have h := schedule_submit_wakes_one schedWitnessState none 7 rfl
  exact ⟨h.2.2.2.1 (by decide), (h.2.1 rfl).1⟩

/-- C7: when the shutdown flag is set, `schedule` runs the task inline on
the calling thread and returns without enqueuing anything: the trace is
exactly the shutdown read followed by the inline run, and both the public
queue and every local deque are left as they were. -/
theorem schedule_after_shutdown_inline (s : PoolState) (callerId : Option Nat) (t : Nat)
    (h : s.shutdown = true) :
    (schedule s callerId t).2 = [SEv.readShutdown true, SEv.runInline t] ∧
    (schedule s callerId t).1.publicQ = s.publicQ ∧
    (schedule s callerId t).1.locals = s.locals := by
  simp [schedule, h]

/-- Witness for C7 at a concrete shut-down state. -/
theorem schedule_after_shutdown_inline_witness :
    (schedule { shutdown := true, locals := [[1]], publicQ := [2], waiters := [4] } none 9).2 =
      [SEv.readShutdown true, SEv.runInline 9] := by
  exact (schedule_after_shutdown_inline
    { shutdown := true, locals := [[1]], publicQ := [2], waiters := [4] } none 9 rfl).1

/-- C9: the post-shutdown inline path of `schedule` is state-framing — the
returned state is the input state unchanged (local deques, public queue and
waiter registry untouched), and the trace contains nothing but the shutdown
read and the inline run (no queue or registry access of any kind). -/
theorem schedule_after_shutdown_frame (s : PoolState) (callerId : Option Nat) (t : Nat)
    (h : s.shutdown = true) :
    (schedule s callerId t).1 = s ∧
    ∀ e ∈ (schedule s callerId t).2,
      e = SEv.readShutdown true ∨ e = SEv.runInline t := by
  constructor
  · simp [schedule, h]
  · intro e he
    simp [schedule, h] at he
    rcases he with h1 | h1 <;> simp [h1]

/-- Witness for C9 at a concrete shut-down state. -/
theorem schedule_after_shutdown_frame_witness :
    (schedule { shutdown := true, locals := [[1]], publicQ := [2], waiters := [4] } (some 0) 9).1 =
      { shutdown := true, locals := [[1]], publicQ := [2], waiters := [4] } := by
  exact (schedule_after_shutdown_frame
    { shutdown := true, locals := [[1]], publicQ := [2], waiters := [4] } (some 0) 9 rfl).1

/-- Checks that every `wait` in a trace is immediately followed by
`removeWaiter` (the discipline of `threadpool_wait_handler`, which removes
its own registry entry after every wake-up). -/
def waitRemovedShape : List Ev → Bool
  | [] => true
  | Ev.wait :: Ev.removeWaiter :: rest => waitRemovedShape rest
  | Ev.wait :: _ => false
  | _ :: rest => waitRemovedShape rest

theorem waitRemovedShape_cons (e : Ev) (r : List Ev) (h : e ≠ Ev.wait) :
    waitRemovedShape (e :: r) = waitRemovedShape r := by
  cases e <;> first | rfl | exact absurd rfl h

theorem waitRemovedShape_wait (r : List Ev) :
    waitRemovedShape (Ev.wait :: Ev.removeWaiter :: r) = waitRemovedShape r := rfl

theorem waitRemovedShape_handler (fuel : Nat) (phase added : Bool) (env : WaitEnv) :
    waitRemovedShape (threadpool_wait_handler fuel phase added env) = true := by
  induction fuel generalizing phase added env with
  | zero => simp [threadpool_wait_handler, waitRemovedShape]
  | succ fuel ih =>
    cases phase with
    | true =>
      cases hr : env.readyQ.headD true with
      | true =>
        simp only [threadpool_wait_handler, hr, if_true]
        rfl
      | false =>
        cases hl : env.localQ.headD false with
        | true =>
          simp only [threadpool_wait_handler, hr, hl, Bool.false_eq_true, if_false, if_true]
          rw [waitRemovedShape_cons _ _ (by decide), waitRemovedShape_cons _ _ (by decide),
            waitRemovedShape_cons _ _ (by decide)]
          exact ih true added _
        | false =>
          simp only [threadpool_wait_handler, hr, hl, Bool.false_eq_true, if_false]
          rw [waitRemovedShape_cons _ _ (by decide), waitRemovedShape_cons _ _ (by decide)]
          exact ih false added _
    | false =>
      cases hp : env.pubQ.headD false with
      | true =>
        simp only [threadpool_wait_handler, hp, if_true]
        rw [waitRemovedShape_cons _ _ (by decide), waitRemovedShape_cons _ _ (by decide)]
        exact ih true added _
      | false =>
        cases hst : env.stealQ.headD false with
        | true =>
          simp only [threadpool_wait_handler, hp, hst, Bool.false_eq_true, if_false, if_true]
          rw [waitRemovedShape_cons _ _ (by decide), waitRemovedShape_cons _ _ (by decide),
            waitRemovedShape_cons _ _ (by decide)]
          exact ih true added _
        | false =>
          cases hr1 : env.readyQ.headD true with
          | true =>
            simp only [threadpool_wait_handler, hp, hst, hr1, Bool.false_eq_true,
              if_false, if_true]
            rfl
          | false =>
            cases hr2 : env.readyQ.tail.headD true with
            | true =>
              simp only [threadpool_wait_handler, hp, hst, hr1, hr2, Bool.false_eq_true,
                if_false, if_true]
              cases added <;> simp only [if_true, Bool.false_eq_true, if_false,
                List.cons_append, List.nil_append] <;> rfl
            | false =>
              simp only [threadpool_wait_handler, hp, hst, hr1, hr2, Bool.false_eq_true,
                if_false]
              cases added with
              | true =>
                simp only [if_true, List.nil_append]
                rw [waitRemovedShape_cons _ _ (by decide), waitRemovedShape_cons _ _ (by decide),
                  waitRemovedShape_cons _ _ (by decide), waitRemovedShape_cons _ _ (by decide),
                  waitRemovedShape_cons _ _ (by decide), waitRemovedShape_cons _ _ (by decide),
                  waitRemovedShape_wait, waitRemovedShape_cons _ _ (by decide)]
                exact ih false true _
              | false =>
                simp only [Bool.false_eq_true, if_false, List.cons_append, List.nil_append]
                rw [waitRemovedShape_cons _ _ (by decide), waitRemovedShape_cons _ _ (by decide),
                  waitRemovedShape_cons _ _ (by decide), waitRemovedShape_cons _ _ (by decide),
                  waitRemovedShape_cons _ _ (by decide), waitRemovedShape_cons _ _ (by decide),
                  waitRemovedShape_cons _ _ (by decide), waitRemovedShape_wait,
                  waitRemovedShape_cons _ _ (by decide)]
                exact ih false true _

theorem worker_thread_no_removeWaiter (fuel : Nat) (phase : Bool) (env : WorkerEnv) :
    Ev.removeWaiter ∉ worker_thread fuel phase env := by
  induction fuel generalizing phase env with
  | zero => simp [worker_thread]
  | succ fuel ih =>
    cases phase with
    | true =>
      cases hl : env.localQ.headD false with
      | true =>
        simp only [worker_thread, hl, if_true]
        simp [List.mem_cons, ih true]
      | false =>
        simp only [worker_thread, hl, Bool.false_eq_true, if_false]
        simp [List.mem_cons, ih false]
    | false =>
      cases hp : env.pubQ.headD false with
      | true =>
        simp only [worker_thread, hp, if_true]
        simp [List.mem_cons, ih true]
      | false =>
        cases hs1 : env.shut.headD true with
        | true =>
          simp only [worker_thread, hp, hs1, Bool.false_eq_true, if_false, if_true]
          simp
        | false =>
          cases hst : env.stealQ.headD false with
          | true =>
            simp only [worker_thread, hp, hs1, hst, Bool.false_eq_true, if_false, if_true]
            simp [List.mem_cons, ih true]
          | false =>
            cases hs2 : env.shut.tail.headD true with
            | true =>
              simp only [worker_thread, hp, hs1, hst, hs2, Bool.false_eq_true,
                if_false, if_true]
              simp
            | false =>
              simp only [worker_thread, hp, hs1, hst, hs2, Bool.false_eq_true, if_false]
              simp [List.mem_cons, ih false]

/-- C8: when `schedule` wakes a parked worker it pops the most recently
registered waiter — the back of the `waiters` vector — inside the critical
section (between lock acquisition and release, after the in-lock re-check)
and signals it only after releasing the lock; the worker main loop never
performs `remove_waiter`, so a main-loop park's registry entry disappears
only via a waker's pop or the destructor's clear; the nested wait handler,
by contrast, removes its own entry immediately after every `wait()`. -/
theorem schedule_wake_back_remove_discipline (s : PoolState) (callerId : Option Nat)
    (t : Nat) (h : s.shutdown = false) (hw : s.waiters ≠ []) :
    (schedule s callerId t).1.waiters = s.waiters.dropLast ∧
    (schedule s callerId t).2 =
      [SEv.readShutdown false,
       (match callerId with
        | some i => SEv.pushLocal i t
        | none => SEv.pushPublic t),
       SEv.fastEmptyCheck false, SEv.lockAcquire, SEv.recheckEmpty false,
       SEv.popBackWaiter (s.waiters.getLastD 0), SEv.lockRelease,
       SEv.signalWaiter (s.waiters.getLastD 0)] ∧
    (∀ fuel phase env, Ev.removeWaiter ∉ worker_thread fuel phase env) ∧
    (∀ fuel phase added wenv,
      waitRemovedShape (threadpool_wait_handler fuel phase added wenv) = true) := by
  refine ⟨?_, ?_, worker_thread_no_removeWaiter, waitRemovedShape_handler⟩ <;>
    cases callerId <;> cases hx : s.waiters <;> simp_all [schedule]

/-- Witness for C8 at a concrete state with a single registered waiter. -/
theorem schedule_wake_back_remove_discipline_witness :
    (schedule schedWitnessState (some 0) 8).1.waiters = [] ∧
    (schedule schedWitnessState (some 0) 8).2.getLast? = some (SEv.signalWaiter 5) := by
  have h := schedule_wake_back_remove_discipline schedWitnessState (some 0) 8 rfl (by decide)
  constructor
  · rw [h.1]
    rfl
  · rw [h.2.1]
    rfl

/-- Operations performed by `~threadpool_scheduler_impl`, in source order. -/
inductive DEv where
  | setShutdown
  | signalWaiter (w : Nat)
  | clearWaiters
  | joinThread (i : Nat)
  | workerRun (i : Nat) (t : Nat)
  | drainRun (t : Nat)
  deriving DecidableEq, Repr

/-- Behaviour of worker `i`'s main loop while being joined, after the
shutdown flag is set: the outer loop pops and runs local tasks; once the
local deque is empty the inner loop pops and runs public tasks; when the
public queue is also empty the worker observes `shutdown` and returns
(stealing is unreachable because the shutdown check precedes it).  Returns
the run events together with the remaining local and public queues. -/
def drainWorker (i : Nat) : List Nat → List Nat → List DEv × (List Nat × List Nat)
  | t :: loc, pub =>
    let r := drainWorker i loc pub
    (DEv.workerRun i t :: r.1, r.2)
  | [], t :: pub =>
    let r := drainWorker i [] pub
    (DEv.workerRun i t :: r.1, r.2)
  | [], [] => ([], ([], []))
termination_by loc pub => loc.length + pub.length

/-- Sequentialized join phase of the destructor: joins workers in index
order, each joined worker running to completion on its local deque and the
shared public queue.  Returns the events, the remaining local deques, and
the remaining public queue. -/
def joinAll : Nat → List (List Nat) → List Nat → List DEv × (List (List Nat) × List Nat)
  | _, [], pub => ([], ([], pub))
  | i, loc :: rest, pub =>
    let r1 := drainWorker i loc pub
    let r2 := joinAll (i + 1) rest r1.2.2
    (r1.1 ++ DEv.joinThread i :: r2.1, (r1.2.1 :: r2.2.1, r2.2.2))

/-- Final drain loop of the destructor: pops and runs every remaining
public-queue task inline on the destructing thread. -/
def drainPublic : List Nat → List DEv × List Nat
  | [] => ([], [])
  | t :: rest =>
    let r := drainPublic rest
    (DEv.drainRun t :: r.1, r.2)

/-- Embedding of `~threadpool_scheduler_impl` (scheduler.cpp lines
315-335): set `shutdown`; under `waiters_lock` signal every registered
waiter in list order and clear the list; join all worker threads; then
flush the public queue by running remaining tasks inline. -/
def threadpool_destructor (s : PoolState) : PoolState × List DEv :=
  let s1 : PoolState := { s with shutdown := true }
  let signalEvs := s1.waiters.map DEv.signalWaiter
  let s2 : PoolState := { s1 with waiters := [] }
  let j := joinAll 0 s2.locals s2.publicQ
  let d := drainPublic j.2.2
  ({ s2 with locals := j.2.1, publicQ := d.2 },
   DEv.setShutdown :: (signalEvs ++ DEv.clearWaiters :: (j.1 ++ d.1)))

theorem drainWorker_drains (i : Nat) (loc pub : List Nat) :
    (drainWorker i loc pub).2 = ([], []) := by
  induction loc generalizing pub with
  | nil =>
    induction pub with
    | nil => simp [drainWorker]
    | cons t rest ihp => simp [drainWorker, ihp]
  | cons t rest ih => simp [drainWorker, ih]

theorem drainPublic_drains (l : List Nat) : (drainPublic l).2 = [] := by
  induction l with
  | nil => rfl
  | cons t rest ih => simp [drainPublic, ih]

theorem joinAll_drains (i : Nat) (ls : List (List Nat)) (pub : List Nat) :
    (∀ l ∈ (joinAll i ls pub).2.1, l = []) ∧
    (joinAll i ls pub).2.1.length = ls.length ∧
    (ls = [] → (joinAll i ls pub).2.2 = pub) ∧
    (ls ≠ [] → (joinAll i ls pub).2.2 = []) ∧
    (∀ k, k < ls.length → DEv.joinThread (i + k) ∈ (joinAll i ls pub).1) := by
  induction ls generalizing i pub with
  | nil => simp [joinAll]
  | cons loc rest ih =>
    have hdw := drainWorker_drains i loc pub
    have ihr := ih (i + 1) (drainWorker i loc pub).2.2
    refine ⟨?_, ?_, ?_, ?_, ?_⟩
    · intro l hl
      simp only [joinAll, List.mem_cons] at hl
      rcases hl with h1 | h1
      · rw [h1]
        simp [hdw]
      · exact ihr.1 l h1
    · simp [joinAll, ihr.2.1]
    · intro habs
      exact absurd habs (by simp)
    · intro _
      simp only [joinAll]
      rcases Decidable.em (rest = []) with hr | hr
      · subst hr
        simp [joinAll, hdw]
      · exact ihr.2.2.2.1 hr
    · intro k hk
      cases k with
      | zero =>
        simp [joinAll]
      | succ k =>
        simp only [joinAll, List.mem_append, List.mem_cons]
        right
        right
        have hmem := ihr.2.2.2.2 k (by simpa using hk)
        have harith : i + 1 + k = i + (k + 1) := by omega
        rw [harith] at hmem
        exact hmem

/-- C3: the destructor performs, in order, the shutdown-flag store, one
signal per registered waiter followed by clearing the registry, the join of
every worker thread (each join running that worker to completion), and the
inline drain of the public queue; afterwards the public queue and every
worker's local deque are empty, the waiter registry is empty, and every
worker thread has been joined. -/
theorem threadpool_destructor_spec (s : PoolState) :
    (threadpool_destructor s).1.publicQ = [] ∧
    (∀ l ∈ (threadpool_destructor s).1.locals, l = []) ∧
    (threadpool_destructor s).1.waiters = [] ∧
    (threadpool_destructor s).1.locals.length = s.locals.length ∧
    (∀ k, k < s.locals.length → DEv.joinThread k ∈ (threadpool_destructor s).2) ∧
    (threadpool_destructor s).2 =
      DEv.setShutdown :: (s.waiters.map DEv.signalWaiter ++ DEv.clearWaiters ::
        ((joinAll 0 s.locals s.publicQ).1 ++
          (drainPublic (joinAll 0 s.locals s.publicQ).2.2).1)) := by
  have hj := joinAll_drains 0 s.locals s.publicQ
  refine ⟨?_, ?_, rfl, ?_, ?_, rfl⟩
  · exact drainPublic_drains _
  · intro l hl
    exact hj.1 l hl
  · exact hj.2.1
  · intro k hk
    have hmem := hj.2.2.2.2 k hk
    rw [Nat.zero_add] at hmem
    simp [threadpool_destructor, List.mem_cons, List.mem_append, hmem]

/-- Concrete state used to instantiate the destructor theorem. -/
def dtorWitnessState : PoolState :=
  { shutdown := false, locals := [[1, 2], []], publicQ := [3], waiters := [9] }

/-- Witness for C3 at a concrete two-worker state. -/
theorem threadpool_destructor_spec_witness :
    (threadpool_destructor dtorWitnessState).1.publicQ = [] ∧
    DEv.joinThread 1 ∈ (threadpool_destructor dtorWitnessState).2 := by
  have h := threadpool_destructor_spec dtorWitnessState
  exact ⟨h.1, h.2.2.2.2.1 1 (by decide)⟩

/-- Whitespace characters skipped by `std::stoi` (C locale `isspace`). -/
def cppIsSpace (c : Char) : Bool :=
  c == ' ' || c == '\t' || c == '\n' || c == '\x0b' || c == '\x0c' || c == '\r'

/-- Longest prefix of decimal digits. -/
def takeDigits : List Char → List Char
  | c :: rest => if c.isDigit then c :: takeDigits rest else []
  | [] => []

/-- Value of a digit string. -/
def digitsToNat (l : List Char) : Nat :=
  l.foldl (fun acc c => acc * 10 + (c.toNat - 48)) 0

def intMax : Int := 2147483647

def intMin : Int := -2147483648

/-- Modelled std::stoi with base 10 (C++ standard semantics, via strtol):
skip leading whitespace, accept one optional sign, then the longest prefix
of decimal digits — trailing characters are ignored; throw (here: `none`)
when no digit was consumed (invalid_argument) or the value does not fit in
int (out_of_range). -/
def stoiChars (l : List Char) : Option Int :=
  let l1 := l.dropWhile cppIsSpace
  let neg : Bool := l1.headD 'x' == '-'
  let signed : Bool := neg || (l1.headD 'x' == '+')
  let l2 := if signed then l1.tail else l1
  let ds := takeDigits l2
  if ds.isEmpty then none
  else
    let n : Int := digitsToNat ds
    let v : Int := if neg then -n else n
    if v < intMin || intMax < v then none else some v

def stoi (s : String) : Option Int :=
  stoiChars s.data

/-- Worker-count computation of the `threadpool_scheduler_impl` constructor
(scheduler.cpp lines 284-296): start from `hardware_concurrency()`;
overwrite with `std::stoi(getenv("LIBASYNC_NUM_THREADS"))` when the
variable is set and stoi does not throw; finally clamp with
`std::max(num_threads, 1)`. -/
def threadpool_init_num_threads (hardwareConcurrency : Nat) (envVar : Option String) : Int :=
  let n0 : Int := hardwareConcurrency
  let n1 : Int :=
    match envVar with
    | none => n0
    | some s =>
      match stoi s with
      | some v => v
      | none => n0
  max n1 1

/-- String that is a decimal positive integer as the claim words it:
nonempty, digits only, and of value at least 1. -/
def isPosDecimal (s : String) : Bool :=
  !s.data.isEmpty && s.data.all Char.isDigit && decide (1 ≤ digitsToNat s.data)

/-- Worker count as claim C6 words it: use the variable only when it is a
valid positive decimal integer; when it is absent or malformed, silently
ignore it and use hardware concurrency; clamp below 1 to 1. -/
def claimNumThreads (hardwareConcurrency : Nat) (envVar : Option String) : Int :=
  match envVar with
  | some s =>
    if isPosDecimal s then max (digitsToNat s.data : Int) 1
    else max (hardwareConcurrency : Int) 1
  | none => max (hardwareConcurrency : Int) 1

/-- C6 (counterexample): with hardware concurrency 8 and
`LIBASYNC_NUM_THREADS=5x` — a malformed value, not a valid positive decimal
integer — the claim prescribes falling back to 8, but the code's
`std::stoi` parses the digit prefix and yields 5. -/
theorem num_threads_trailing_garbage_cex :
    threadpool_init_num_threads 8 (some "5x") = 5 ∧
    claimNumThreads 8 (some "5x") = 8 ∧
    threadpool_init_num_threads 8 (some "5x") ≠ claimNumThreads 8 (some "5x") := by
  refine ⟨by decide, by decide, by decide⟩

theorem digit_not_special (c : Char) (h : c.isDigit = true) :
    cppIsSpace c = false ∧ (c == '-') = false ∧ (c == '+') = false := by
  refine ⟨?_, ?_, ?_⟩
  · cases hsp : cppIsSpace c with
    | false => rfl
    | true =>
      exfalso
      simp only [cppIsSpace, Bool.or_eq_true, beq_iff_eq] at hsp
      rcases hsp with ((((h1 | h1) | h1) | h1) | h1) | h1 <;>
        rw [h1] at h <;> exact absurd h (by decide)
  · cases hm : c == '-' with
    | false => rfl
    | true =>
      exfalso
      rw [beq_iff_eq] at hm
      rw [hm] at h
      exact absurd h (by decide)
  · cases hm : c == '+' with
    | false => rfl
    | true =>
      exfalso
      rw [beq_iff_eq] at hm
      rw [hm] at h
      exact absurd h (by decide)

theorem takeDigits_all (l : List Char) (h : l.all Char.isDigit = true) :
    takeDigits l = l := by
  induction l with
  | nil => rfl
  | cons c rest ih =>
    simp only [List.all_cons, Bool.and_eq_true] at h
    simp [takeDigits, h.1, ih h.2]

theorem stoi_posDecimal (s : String) (h : isPosDecimal s = true)
    (hrange : (digitsToNat s.data : Int) ≤ intMax) :
    stoi s = some (digitsToNat s.data) := by
  simp only [isPosDecimal, Bool.and_eq_true, Bool.not_eq_true', decide_eq_true_eq] at h
  obtain ⟨⟨hne, hall⟩, hval⟩ := h
  cases hd : s.data with
  | nil => rw [hd] at hne; exact absurd hne (by decide)
  | cons c rest =>
    rw [hd] at hall
    simp only [List.all_cons, Bool.and_eq_true] at hall
    have hc := digit_not_special c hall.1
    have hdrop : (c :: rest).dropWhile cppIsSpace = c :: rest := by
      rw [List.dropWhile_cons, hc.1]
      simp
    have htake : takeDigits (c :: rest) = c :: rest :=
      takeDigits_all _ (by simp [List.all_cons, hall.1, hall.2])
    rw [hd] at hrange hval
    simp only [stoi, stoiChars, hd, hdrop, List.headD_cons, hc.2.1, hc.2.2,
      Bool.or_self, Bool.false_eq_true, if_false, htake, List.isEmpty_cons]
    have hnonneg : (0 : Int) ≤ (digitsToNat (c :: rest) : Int) := Int.ofNat_nonneg _
    have h1 : ¬((digitsToNat (c :: rest) : Int) < intMin) := by
      intro hlt
      have : intMin ≤ 0 := by decide
      omega
    have h2 : ¬(intMax < (digitsToNat (c :: rest) : Int)) := not_lt.mpr hrange
    simp [h1, h2]

/-- C6 (amended): the variable's value is parsed with std::stoi semantics —
optional whitespace and sign followed by the longest digit prefix, trailing
characters ignored; whenever stoi succeeds its value (including zero or
negative values) is used and then clamped to at least 1; hardware
concurrency is used only when the variable is absent or stoi throws (no
digits, or value out of int range); a string that is a plain positive
decimal integer within int range is used exactly as written; in every case
the final count is at least 1. -/
theorem threadpool_num_threads_amended (hw : Nat) (good bad pos : String) (v : Int)
    (hgood : stoi good = some v) (hbad : stoi bad = none)
    (hpos : isPosDecimal pos = true)
    (hrange : (digitsToNat pos.data : Int) ≤ intMax) :
    threadpool_init_num_threads hw (some good) = max v 1 ∧
    threadpool_init_num_threads hw (some bad) = max (hw : Int) 1 ∧
    threadpool_init_num_threads hw none = max (hw : Int) 1 ∧
    threadpool_init_num_threads hw (some pos) = (digitsToNat pos.data : Int) ∧
    1 ≤ threadpool_init_num_threads hw (some good) ∧
    1 ≤ threadpool_init_num_threads hw none := by
  have hstoi := stoi_posDecimal pos hpos hrange
  have hval : (1 : Int) ≤ (digitsToNat pos.data : Int) := by
    simp only [isPosDecimal, Bool.and_eq_true, decide_eq_true_eq] at hpos
    exact_mod_cast hpos.2
  refine ⟨?_, ?_, ?_, ?_, ?_, ?_⟩
  · simp [threadpool_init_num_threads, hgood]
  · simp [threadpool_init_num_threads, hbad]
  · simp [threadpool_init_num_threads]
  · simp [threadpool_init_num_threads, hstoi, max_eq_left hval]
  · exact le_max_right _ _
  · exact le_max_right _ _

/-- Witness for C6 (amended) at concrete inputs: a parsable string with
whitespace and sign, an unparsable string, and a plain positive decimal. -/
theorem threadpool_num_threads_amended_witness :
    threadpool_init_num_threads 8 (some " +12") = 12 ∧
    threadpool_init_num_threads 8 (some "abc") = 8 ∧
    threadpool_init_num_threads 8 (some "4") = 4 := by
  have h := threadpool_num_threads_amended 8 " +12" "abc" "4" 12
    (by decide) (by decide) (by decide) (by decide)
  refine ⟨?_, ?_, ?_⟩
  · rw [h.1]
    decide
  · rw [h.2.1]
    decide
  · rw [h.2.2.2.1]
    decide

/-- Events of `thread_scheduler_impl::schedule` and outcome of a call. -/
inductive TEv where
  | constructThread
  | childRun (t : Nat)
  | terminateCall
  | returnToCaller
  deriving DecidableEq, Repr

inductive ThreadOutcome where
  | returned
  | terminated
  deriving DecidableEq, Repr

/-- Modelled std::thread handle: `joinable` records whether the handle
still owns a thread.  Construction yields a joinable handle; only
`detach()` or `join()` clear the flag, and `thread_scheduler_impl::schedule`
calls neither. -/
structure CppThread where
  joinable : Bool
  deriving DecidableEq, Repr

def CppThread.construct : CppThread :=
  { joinable := true }

/-- Modelled from the C++ standard: the destructor of a `std::thread` whose
`joinable()` is true calls `std::terminate`. -/
def CppThread.destroy (th : CppThread) : List TEv :=
  if th.joinable then [TEv.terminateCall] else [TEv.returnToCaller]

/-- Embedding of `thread_scheduler_impl::schedule` (scheduler.cpp lines
392-397): constructs a temporary `std::thread` running the task, then the
temporary is destroyed at the end of the full-expression.  The source
neither detaches nor joins the thread, so the temporary is still joinable
when destroyed.  Returns the caller's trace, the spawned thread's trace,
and the caller's outcome. -/
def thread_scheduler_schedule (t : Nat) : List TEv × List TEv × ThreadOutcome :=
  let tmp := CppThread.construct
  (TEv.constructThread :: CppThread.destroy tmp,
   [TEv.childRun t],
   if tmp.joinable then ThreadOutcome.terminated else ThreadOutcome.returned)

/-- C5 (code bug): `thread_scheduler_impl::schedule` does spawn a fresh
thread that runs the task, but the `std::thread` temporary is never
detached or joined, so its destruction at the end of the full-expression
calls `std::terminate` — `schedule` does not return control to the caller
as the claim states. -/
theorem thread_scheduler_terminates_cex :
    (thread_scheduler_schedule 0).2.1 = [TEv.childRun 0] ∧
    (thread_scheduler_schedule 0).1 = [TEv.constructThread, TEv.terminateCall] ∧
    (thread_scheduler_schedule 0).2.2 = ThreadOutcome.terminated ∧
    (thread_scheduler_schedule 0).2.2 ≠ ThreadOutcome.returned := by
  decide

/-- Modelled from the spec: `auto_reset_event.h` is not under src/; spec
section 4.3 describes the primitive as a binary latched event — `signal`
wakes the single waiter or, with no waiter, latches so that the next `wait`
returns immediately; `wait` consumes the latch; `reset` clears it. -/
structure AutoResetEvent where
  latched : Bool
  deriving DecidableEq, Repr

def AutoResetEvent.signal (_ : AutoResetEvent) : AutoResetEvent :=
  { latched := true }

/-- One wait attempt: `some` (latch consumed, wait returns) or `none` (the
caller blocks until a future signal). -/
def AutoResetEvent.waitStep (e : AutoResetEvent) : Option AutoResetEvent :=
  if e.latched then some { latched := false } else none

/-- Embedding of `generic_wait_handler` (scheduler.cpp lines 401-414),
called when the awaited task is or is not already complete: create a local
auto-reset event, unconditionally attach the `on_finish` continuation —
which fires immediately, signalling the event, when the task is already
complete — and then wait on the event.  Returns the trace, whether the call
terminated without any further external signal, and the event's state. -/
def generic_wait_handler (completed : Bool) : List Ev × Bool × AutoResetEvent :=
  let e0 : AutoResetEvent := { latched := false }
  let e1 := if completed then e0.signal else e0
  match e1.waitStep with
  | some e2 => ([Ev.attachContinuation, Ev.wait], true, e2)
  | none => ([Ev.attachContinuation, Ev.wait], false, e1)

/-- Dispatch of `wait_for_task` on a thread outside the pool (scheduler.cpp
lines 417-424): the thread-local `thread_wait_handler` of a thread that
never called `set_thread_wait_handler` is `generic_wait_handler`. -/
def wait_for_task_nonworker (completed : Bool) : List Ev × Bool × AutoResetEvent :=
  generic_wait_handler completed

/-- C10: a non-worker `wait_for_task` call dispatches to
`generic_wait_handler`, whose first action is attaching the `on_finish`
continuation — no `ready()` check is ever performed; when the task is
already complete at call time the continuation's signal is latched before
`wait()`, so `wait()` returns and the call terminates. -/
theorem generic_wait_attach_unconditional (completed : Bool) :
    wait_for_task_nonworker completed = generic_wait_handler completed ∧
    (wait_for_task_nonworker completed).1.head? = some Ev.attachContinuation ∧
    (∀ b, Ev.readyCheck b ∉ (wait_for_task_nonworker completed).1) ∧
    (completed = true → (wait_for_task_nonworker completed).2.1 = true) := by
  cases completed <;> exact ⟨rfl, rfl, by decide, by decide⟩

/-- Witness for C10: a call on an already-completed task terminates. -/
theorem generic_wait_attach_unconditional_witness :
    (wait_for_task_nonworker true).2.1 = true := by
  exact (generic_wait_attach_unconditional true).2.2.2 rfl

end AsyncPP
